import Mathlib

/-!
Shallow embedding of the euler vector / transform library
(source files: src/src/vec.rs and src/src/trs.rs).

Scalar model.  IEEE-754 binary floating-point data are modelled by the
inductive type Fl: a finite datum carries the exact rational value it
denotes, and there are two signed infinities and a single canonical NaN
(NaN payloads and the sign of zero are not distinguished; no claim under
consideration depends on either).  A Format fixes the precision, the
exponent range and the bit width of a concrete type (binary32 for f32,
binary64 for f64).  roundFl is round-to-nearest, ties-to-even, with
overflow to infinity: the rounding used by Rust float arithmetic and by
Rust float-to-float `as` casts.

Matrix kernel.  The cgmath matrix / quaternion kernel is an external
collaborator of the repository (spec section 1, OUT OF SCOPE; section 4.2
gives its contract).  It is modelled with exact rational arithmetic: the
construction formulas are cgmath's, the numerics are exact per the spec's
assumption that the kernel is correct.
-/

/-- Floating-point format: significand width in bits, least quantum
exponent, largest binade exponent, and total bit width. -/
structure Format where
  prec : Nat
  emin : Int
  emax : Int
  width : Nat
deriving DecidableEq

/-- IEEE-754 binary32, the format of Rust f32. -/
def fmt32 : Format := ⟨24, -149, 127, 32⟩

/-- IEEE-754 binary64, the format of Rust f64. -/
def fmt64 : Format := ⟨53, -1074, 1023, 64⟩

/-- Integer power of two, as a rational. -/
def qpow2 (k : Int) : ℚ := (2 : ℚ) ^ k

/-- Floor of a rational, via Euclidean integer division (the denominator
is positive, so Euclidean division is flooring division). -/
def qfloor (q : ℚ) : Int := Int.ediv q.num (q.den : Int)

/-- Floor of the base-two logarithm of a positive rational (value
unspecified for nonpositive input).  Nat.log2 of numerator and
denominator locates the result up to one, and a single comparison
settles it. -/
def ratLog2 (q : ℚ) : Int :=
  let k : Int := (Nat.log2 q.num.natAbs : Int) - (Nat.log2 q.den : Int)
  if qpow2 k ≤ q then k else k - 1

/-- Round a rational to the nearest integer, ties to even. -/
def nearestEven (q : ℚ) : Int :=
  let n := qfloor q
  let f := q - (n : ℚ)
  if f < 1 / 2 then n
  else if 1 / 2 < f then n + 1
  else if n % 2 = 0 then n else n + 1

/-- Exponent of the quantum (unit in the last place) used for a value of
magnitude near q in format fmt. -/
def Format.quantum (fmt : Format) (q : ℚ) : Int :=
  max fmt.emin (ratLog2 |q| - ((fmt.prec : Int) - 1))

/-- A floating-point datum: an exact finite value, a signed infinity
(neg = true for negative infinity), or NaN. -/
inductive Fl where
  | finite (q : ℚ)
  | inf (neg : Bool)
  | nan
deriving DecidableEq

/-- Round an exact rational into format fmt: round to nearest, ties to
even, overflowing to the signed infinity (the rounding of IEEE-754 and
of all Rust float operations). -/
def roundFl (fmt : Format) (q : ℚ) : Fl :=
  if q = 0 then Fl.finite 0
  else
    let k := fmt.quantum q
    let r := (nearestEven (q / qpow2 k) : ℚ) * qpow2 k
    if |r| < qpow2 (fmt.emax + 1) then Fl.finite r
    else Fl.inf (decide (q < 0))

/-- The datum is a value of format fmt.  NaN and the infinities are
values of every format; a finite value must be an integer multiple of
its quantum and lie below the overflow threshold. -/
def Fl.isRepr (fmt : Format) : Fl → Bool
  | .finite q =>
      decide (q = 0 ∨ ((q / qpow2 (fmt.quantum q)).den = 1 ∧ |q| < qpow2 (fmt.emax + 1)))
  | _ => true

/-- IEEE convertFormat, the semantics of Rust float-to-float `as` casts:
finite values are rounded into the destination format, infinities and
NaN are preserved. -/
def castTo (fmt : Format) : Fl → Fl
  | .finite q => roundFl fmt q
  | .inf n => .inf n
  | .nan => .nan

/-- IEEE negation. -/
def fneg : Fl → Fl
  | .finite q => .finite (-q)
  | .inf n => .inf (!n)
  | .nan => .nan

/-- IEEE absolute value (Rust f32::abs / f64::abs). -/
def fabs : Fl → Fl
  | .finite q => .finite |q|
  | .inf _ => .inf false
  | .nan => .nan

/-- IEEE addition in format fmt (the + of Rust floats): NaN propagates,
opposite infinities give NaN, and finite sums are computed exactly and
rounded. -/
def fadd (fmt : Format) : Fl → Fl → Fl
  | .nan, _ => .nan
  | _, .nan => .nan
  | .inf n, .inf m => if n = m then .inf n else .nan
  | .inf n, .finite _ => .inf n
  | .finite _, .inf n => .inf n
  | .finite a, .finite b => roundFl fmt (a + b)

/-- IEEE subtraction (the - of Rust floats), as addition of the
negation, to which it is equivalent in every case. -/
def fsub (fmt : Format) (a b : Fl) : Fl := fadd fmt a (fneg b)

/-- IEEE multiplication in format fmt (the * of Rust floats). -/
def fmul (fmt : Format) : Fl → Fl → Fl
  | .nan, _ => .nan
  | _, .nan => .nan
  | .inf n, .inf m => .inf (n != m)
  | .inf n, .finite q => if q = 0 then .nan else .inf (n != decide (q < 0))
  | .finite q, .inf n => if q = 0 then .nan else .inf (n != decide (q < 0))
  | .finite a, .finite b => roundFl fmt (a * b)

/-- IEEE equality, the == of Rust floats (derived PartialEq compares
fields with it): NaN is unequal to everything, including itself.  The
model folds -0.0 into +0.0, which agrees with ==, since 0.0 == -0.0
holds in IEEE. -/
def feq : Fl → Fl → Bool
  | .finite a, .finite b => a == b
  | .inf n, .inf m => n == m
  | _, _ => false

/-- IEEE less-or-equal (Rust <= on floats): false whenever NaN is
involved. -/
def fle : Fl → Fl → Bool
  | .nan, _ => false
  | _, .nan => false
  | .inf true, _ => true
  | _, .inf true => false
  | .inf false, .inf false => true
  | .inf false, .finite _ => false
  | .finite _, .inf false => true
  | .finite a, .finite b => decide (a ≤ b)

/-- IEEE strict less-than (Rust < on floats). -/
def flt : Fl → Fl → Bool
  | .nan, _ => false
  | _, .nan => false
  | .inf true, .inf true => false
  | .inf true, _ => true
  | _, .inf true => false
  | .inf false, _ => false
  | .finite _, .inf false => true
  | .finite a, .finite b => decide (a < b)

/-- IEEE strict greater-than (Rust > on floats). -/
def fgt (a b : Fl) : Bool := flt b a

/-- Rust f32::signum / f64::signum: plus or minus one according to the
sign bit, NaN for NaN.  The model folds -0.0 into +0.0, whose signum is
one. -/
def fsignum : Fl → Fl
  | .nan => .nan
  | .inf n => .finite (if n then -1 else 1)
  | .finite q => .finite (if q < 0 then -1 else 1)

/-- Two's-complement integer holding the IEEE bit pattern of a value of
format fmt: the result of the mem::transmute to i32 / i64 performed by
the ulps_eq implementation of the approx crate.  Meaningful for
representable inputs; for NaN the canonical quiet NaN pattern is
used. -/
def bitsOf (fmt : Format) : Fl → Int
  | .nan =>
      ((2 : Int) ^ (fmt.width - fmt.prec) - 1) * 2 ^ (fmt.prec - 1) + 2 ^ (fmt.prec - 2)
  | .inf n =>
      if n then ((2 : Int) ^ (fmt.width - fmt.prec) - 1) * 2 ^ (fmt.prec - 1) - 2 ^ (fmt.width - 1)
      else ((2 : Int) ^ (fmt.width - fmt.prec) - 1) * 2 ^ (fmt.prec - 1)
  | .finite q =>
      if q = 0 then 0
      else
        let l := ratLog2 |q|
        let m := (|q| / qpow2 (fmt.quantum q)).num
        let body :=
          if fmt.emin ≤ l - ((fmt.prec : Int) - 1)
          then (l + fmt.emax) * 2 ^ (fmt.prec - 1) + (m - 2 ^ (fmt.prec - 1))
          else m
        if q < 0 then body - 2 ^ (fmt.width - 1) else body

/-- Reinterpret an unsigned w-bit count as a signed w-bit integer: the
`max_ulps as i32` cast inside the approx crate's ulps_eq for f32. -/
def intOfUInt (w : Nat) (u : Nat) : Int :=
  if (u % 2 ^ w : Nat) < 2 ^ (w - 1) then ((u % 2 ^ w : Nat) : Int)
  else ((u % 2 ^ w : Nat) : Int) - 2 ^ w

/-- Tier-1 scalar comparison of the approx crate for a float scalar:
the absolute value of the float difference is at most epsilon (false
whenever a NaN appears, since fle is). -/
def absDiffF (fmt : Format) (a b eps : Fl) : Bool :=
  fle (fabs (fsub fmt a b)) eps

/-- The approx crate's default tier-1 epsilon for f32: f32::EPSILON. -/
def defaultEps32 : Fl := .finite (qpow2 (-23))

/-- The approx crate's relative_eq for a float scalar (approx 0.1.x,
the version the vec.rs ApproxEq impls delegate to through cgmath):
shortcut on ==, reject remaining infinities, accept within absolute
epsilon, else compare against the larger magnitude scaled by
max_relative. -/
def flRelativeEq (fmt : Format) (a b eps maxRel : Fl) : Bool :=
  if feq a b then true
  else if (match a with | .inf _ => true | _ => false)
       || (match b with | .inf _ => true | _ => false) then false
  else if fle (fabs (fsub fmt a b)) eps then true
  else
    fle (fabs (fsub fmt a b))
      (fmul fmt (if fgt (fabs b) (fabs a) then fabs b else fabs a) maxRel)

/-- The approx crate's ulps_eq for a float scalar: accept within
absolute epsilon, reject on differing signums, else compare the
distance between the transmuted bit patterns with max_ulps. -/
def flUlpsEq (fmt : Format) (a b eps : Fl) (maxUlps : Nat) : Bool :=
  if fle (fabs (fsub fmt a b)) eps then true
  else if !(feq (fsignum a) (fsignum b)) then false
  else decide (|bitsOf fmt a - bitsOf fmt b| ≤ intOfUInt fmt.width maxUlps)

/-!
Vector family (src/src/vec.rs).  The six Rust types Vec2/Vec3/Vec4 and
DVec2/DVec3/DVec4 are the same structure instantiated at the two scalar
precisions; here the component type is a parameter.  Float-semantics
operations take the Format of the precision they are instantiated at
(fmt32 for the single-precision family, fmt64 for the double-precision
family); layout-only operations are precision-agnostic and fully
parametric.
-/

/-- Two-component vector (Vec2 / DVec2). -/
@[ext]
structure Vec2 (α : Type) where
  x : α
  y : α
deriving DecidableEq

/-- Three-component vector (Vec3 / DVec3). -/
@[ext]
structure Vec3 (α : Type) where
  x : α
  y : α
  z : α
deriving DecidableEq

/-- Four-component vector (Vec4 / DVec4). -/
@[ext]
structure Vec4 (α : Type) where
  x : α
  y : α
  z : α
  w : α
deriving DecidableEq

/-- Full constructor Vec2::new. -/
def Vec2.new {α : Type} (x y : α) : Vec2 α := ⟨x, y⟩

/-- Full constructor Vec3::new. -/
def Vec3.new {α : Type} (x y z : α) : Vec3 α := ⟨x, y, z⟩

/-- Full constructor Vec4::new. -/
def Vec4.new {α : Type} (x y z w : α) : Vec4 α := ⟨x, y, z, w⟩

/-- The raw-array view of a Vec2 (the AsRef and Into impls of the
impl_vector macro, a mem::transmute): the components in declaration
order.  The array is modelled as a function out of Fin 2 over an
arbitrary component type, so equalities about it are bit-level: they
hold whatever the component payloads, NaN patterns included. -/
def Vec2.toArray {α : Type} (v : Vec2 α) : Fin 2 → α := ![v.x, v.y]

/-- Constructing a Vec2 from its raw array (the From array impl of the
impl_vector macro, a mem::transmute). -/
def Vec2.fromArray {α : Type} (a : Fin 2 → α) : Vec2 α := ⟨a 0, a 1⟩

/-- The raw-array view of a Vec3. -/
def Vec3.toArray {α : Type} (v : Vec3 α) : Fin 3 → α := ![v.x, v.y, v.z]

/-- Constructing a Vec3 from its raw array. -/
def Vec3.fromArray {α : Type} (a : Fin 3 → α) : Vec3 α := ⟨a 0, a 1, a 2⟩

/-- The raw-array view of a Vec4. -/
def Vec4.toArray {α : Type} (v : Vec4 α) : Fin 4 → α := ![v.x, v.y, v.z, v.w]

/-- Constructing a Vec4 from its raw array. -/
def Vec4.fromArray {α : Type} (a : Fin 4 → α) : Vec4 α := ⟨a 0, a 1, a 2, a 3⟩

/-- impl From f32 for Vec2: broadcast the scalar to every component. -/
def Vec2.fromF32 (a : Fl) : Vec2 Fl := Vec2.new a a

/-- impl From f64 for Vec2: narrow the scalar to f32, then broadcast. -/
def Vec2.fromF64 (a : Fl) : Vec2 Fl := Vec2.fromF32 (castTo fmt32 a)

/-- impl From f32 for Vec3: broadcast the scalar to every component. -/
def Vec3.fromF32 (a : Fl) : Vec3 Fl := Vec3.new a a a

/-- impl From f64 for Vec3: narrow the scalar to f32, then broadcast. -/
def Vec3.fromF64 (a : Fl) : Vec3 Fl := Vec3.fromF32 (castTo fmt32 a)

/-- impl From f32 for Vec4: broadcast the scalar to every component. -/
def Vec4.fromF32 (a : Fl) : Vec4 Fl := Vec4.new a a a a

/-- impl From f64 for Vec4: narrow the scalar to f32, then broadcast. -/
def Vec4.fromF64 (a : Fl) : Vec4 Fl := Vec4.fromF32 (castTo fmt32 a)

/-- impl From f64 for DVec2: broadcast the scalar to every component. -/
def DVec2.fromF64 (a : Fl) : Vec2 Fl := Vec2.new a a

/-- impl From f32 for DVec2: widen the scalar to f64, then broadcast. -/
def DVec2.fromF32 (a : Fl) : Vec2 Fl := DVec2.fromF64 (castTo fmt64 a)

/-- impl From f64 for DVec3: broadcast the scalar to every component. -/
def DVec3.fromF64 (a : Fl) : Vec3 Fl := Vec3.new a a a

/-- impl From f32 for DVec3: widen the scalar to f64, then broadcast. -/
def DVec3.fromF32 (a : Fl) : Vec3 Fl := DVec3.fromF64 (castTo fmt64 a)

/-- impl From f64 for DVec4: broadcast the scalar to every component. -/
def DVec4.fromF64 (a : Fl) : Vec4 Fl := Vec4.new a a a a

/-- impl From f32 for DVec4: widen the scalar to f64, then broadcast. -/
def DVec4.fromF32 (a : Fl) : Vec4 Fl := DVec4.fromF64 (castTo fmt64 a)

/-- impl From (Vec2, f32) for Vec3 (and its DVec2 / f64 sibling):
dimension lifting, the scalar becomes the new last component. -/
def Vec3.fromPair {α : Type} (arg : Vec2 α × α) : Vec3 α :=
  Vec3.new arg.1.x arg.1.y arg.2

/-- impl From (Vec3, f32) for Vec4 (and its DVec3 / f64 sibling). -/
def Vec4.fromPair {α : Type} (arg : Vec3 α × α) : Vec4 α :=
  Vec4.new arg.1.x arg.1.y arg.1.z arg.2

/-- impl From (Vec2, f32, f32) for Vec4 (and its double sibling). -/
def Vec4.fromTriple {α : Type} (arg : Vec2 α × α × α) : Vec4 α :=
  Vec4.new arg.1.x arg.1.y arg.2.1 arg.2.2

/-- impl From Vec2 for DVec2: per-component widening cast. -/
def DVec2.fromVec2 (v : Vec2 Fl) : Vec2 Fl :=
  Vec2.new (castTo fmt64 v.x) (castTo fmt64 v.y)

/-- impl From DVec2 for Vec2: per-component narrowing cast. -/
def Vec2.fromDVec2 (v : Vec2 Fl) : Vec2 Fl :=
  Vec2.new (castTo fmt32 v.x) (castTo fmt32 v.y)

/-- impl From Vec3 for DVec3: per-component widening cast. -/
def DVec3.fromVec3 (v : Vec3 Fl) : Vec3 Fl :=
  Vec3.new (castTo fmt64 v.x) (castTo fmt64 v.y) (castTo fmt64 v.z)

/-- impl From DVec3 for Vec3: per-component narrowing cast. -/
def Vec3.fromDVec3 (v : Vec3 Fl) : Vec3 Fl :=
  Vec3.new (castTo fmt32 v.x) (castTo fmt32 v.y) (castTo fmt32 v.z)

/-- impl From Vec4 for DVec4: per-component widening cast. -/
def DVec4.fromVec4 (v : Vec4 Fl) : Vec4 Fl :=
  Vec4.new (castTo fmt64 v.x) (castTo fmt64 v.y) (castTo fmt64 v.z) (castTo fmt64 v.w)

/-- impl From DVec4 for Vec4: per-component narrowing cast. -/
def Vec4.fromDVec4 (v : Vec4 Fl) : Vec4 Fl :=
  Vec4.new (castTo fmt32 v.x) (castTo fmt32 v.y) (castTo fmt32 v.z) (castTo fmt32 v.w)

/-- impl ops::Add of the impl_vector macro: componentwise float
addition (delegated to cgmath's vector addition, which is
componentwise). -/
def Vec2.addF (fmt : Format) (a b : Vec2 Fl) : Vec2 Fl :=
  ⟨fadd fmt a.x b.x, fadd fmt a.y b.y⟩

/-- impl ops::Add for the three-component vectors. -/
def Vec3.addF (fmt : Format) (a b : Vec3 Fl) : Vec3 Fl :=
  ⟨fadd fmt a.x b.x, fadd fmt a.y b.y, fadd fmt a.z b.z⟩

/-- impl ops::Add for the four-component vectors. -/
def Vec4.addF (fmt : Format) (a b : Vec4 Fl) : Vec4 Fl :=
  ⟨fadd fmt a.x b.x, fadd fmt a.y b.y, fadd fmt a.z b.z, fadd fmt a.w b.w⟩

/-- The derived PartialEq of Vec2: componentwise float equality. -/
def Vec2.eqF (a b : Vec2 Fl) : Bool := feq a.x b.x && feq a.y b.y

/-- The derived PartialEq of Vec3. -/
def Vec3.eqF (a b : Vec3 Fl) : Bool := feq a.x b.x && feq a.y b.y && feq a.z b.z

/-- The derived PartialEq of Vec4. -/
def Vec4.eqF (a b : Vec4 Fl) : Bool :=
  feq a.x b.x && feq a.y b.y && feq a.z b.z && feq a.w b.w

/-- Tier-1 (absolute-difference) equality for a two-component vector:
every component pair within the one epsilon.  Modelled from the spec
(section 4.4 tier 1): vec.rs implements the two-method ApproxEq trait
of approx 0.1, which carries no absolute tier of its own; the spec's
tier-1 contract is the componentwise conjunction of the scalar
absolute-difference comparison. -/
def Vec2.absDiffEqF (fmt : Format) (a b : Vec2 Fl) (eps : Fl) : Bool :=
  absDiffF fmt a.x b.x eps && absDiffF fmt a.y b.y eps

/-- Tier-1 equality for a three-component vector, modelled from the
spec (section 4.4 tier 1), componentwise. -/
def Vec3.absDiffEqF (fmt : Format) (a b : Vec3 Fl) (eps : Fl) : Bool :=
  absDiffF fmt a.x b.x eps && absDiffF fmt a.y b.y eps && absDiffF fmt a.z b.z eps

/-- Tier-1 equality for a four-component vector, modelled from the
spec, componentwise. -/
def Vec4.absDiffEqF (fmt : Format) (a b : Vec4 Fl) (eps : Fl) : Bool :=
  absDiffF fmt a.x b.x eps && absDiffF fmt a.y b.y eps &&
  absDiffF fmt a.z b.z eps && absDiffF fmt a.w b.w eps

/-- The ApproxEq::relative_eq of the impl_vector macro: delegated to
cgmath's vector impl, which is the componentwise conjunction of the
scalar relative_eq with the one epsilon and max_relative. -/
def Vec3.relativeEqF (fmt : Format) (a b : Vec3 Fl) (eps maxRel : Fl) : Bool :=
  flRelativeEq fmt a.x b.x eps maxRel && flRelativeEq fmt a.y b.y eps maxRel &&
  flRelativeEq fmt a.z b.z eps maxRel

/-- The ApproxEq::ulps_eq of the impl_vector macro: delegated to
cgmath's vector impl, the componentwise conjunction of the scalar
ulps_eq. -/
def Vec3.ulpsEqF (fmt : Format) (a b : Vec3 Fl) (eps : Fl) (maxUlps : Nat) : Bool :=
  flUlpsEq fmt a.x b.x eps maxUlps && flUlpsEq fmt a.y b.y eps maxUlps &&
  flUlpsEq fmt a.z b.z eps maxUlps

/-!
Quaternion and TRS transform (src/src/trs.rs).  The Quat / DQuat and
Mat4 / DMat4 types themselves are not under src/; only their use sites
are.  Quat is modelled from the spec as a rotation quaternion with a
scalar part s and imaginary parts x, y, z (exactly the four fields
trs.rs reads); Mat4 is modelled from the spec (section 4.2) as a plain
4 x 4 matrix of the scalar type, here with exact rational entries.
-/

/-- Rotation quaternion (Quat / DQuat): scalar part s, vector part
x, y, z.  Modelled from the spec; trs.rs reads exactly these fields. -/
@[ext]
structure Quat (α : Type) where
  s : α
  x : α
  y : α
  z : α
deriving DecidableEq

/-- Translation-rotation-scale transform (struct Trs). -/
@[ext]
structure Trs (α : Type) where
  t : Vec3 α
  r : Quat α
  s : Vec3 α
deriving DecidableEq

/-- Double-precision translation-rotation-scale transform (struct DTrs,
duplicated in the source exactly as Trs is). -/
@[ext]
structure DTrs (α : Type) where
  t : Vec3 α
  r : Quat α
  s : Vec3 α
deriving DecidableEq

/-- A 4 x 4 matrix with exact rational entries, written row-major:
mRC is the entry in row R, column C.  Models the repository's Mat4 /
DMat4 and cgmath's Matrix4 (spec section 4.2). -/
@[ext]
structure Mat4 where
  m00 : ℚ
  m01 : ℚ
  m02 : ℚ
  m03 : ℚ
  m10 : ℚ
  m11 : ℚ
  m12 : ℚ
  m13 : ℚ
  m20 : ℚ
  m21 : ℚ
  m22 : ℚ
  m23 : ℚ
  m30 : ℚ
  m31 : ℚ
  m32 : ℚ
  m33 : ℚ
deriving DecidableEq

/-- A 3 x 3 matrix with exact rational entries, row-major. -/
@[ext]
structure Mat3 where
  m00 : ℚ
  m01 : ℚ
  m02 : ℚ
  m10 : ℚ
  m11 : ℚ
  m12 : ℚ
  m20 : ℚ
  m21 : ℚ
  m22 : ℚ
deriving DecidableEq

/-- The 4 x 4 identity matrix. -/
def idMat4 : Mat4 := ⟨1,0,0,0, 0,1,0,0, 0,0,1,0, 0,0,0,1⟩

/-- Standard 4 x 4 matrix product (spec section 4.2: multiply two 4 x 4
matrices): entry (i,j) is the dot product of row i of the left factor
with column j of the right factor. -/
def matMul (a b : Mat4) : Mat4 :=
  ⟨a.m00*b.m00 + a.m01*b.m10 + a.m02*b.m20 + a.m03*b.m30,
   a.m00*b.m01 + a.m01*b.m11 + a.m02*b.m21 + a.m03*b.m31,
   a.m00*b.m02 + a.m01*b.m12 + a.m02*b.m22 + a.m03*b.m32,
   a.m00*b.m03 + a.m01*b.m13 + a.m02*b.m23 + a.m03*b.m33,
   a.m10*b.m00 + a.m11*b.m10 + a.m12*b.m20 + a.m13*b.m30,
   a.m10*b.m01 + a.m11*b.m11 + a.m12*b.m21 + a.m13*b.m31,
   a.m10*b.m02 + a.m11*b.m12 + a.m12*b.m22 + a.m13*b.m32,
   a.m10*b.m03 + a.m11*b.m13 + a.m12*b.m23 + a.m13*b.m33,
   a.m20*b.m00 + a.m21*b.m10 + a.m22*b.m20 + a.m23*b.m30,
   a.m20*b.m01 + a.m21*b.m11 + a.m22*b.m21 + a.m23*b.m31,
   a.m20*b.m02 + a.m21*b.m12 + a.m22*b.m22 + a.m23*b.m32,
   a.m20*b.m03 + a.m21*b.m13 + a.m22*b.m23 + a.m23*b.m33,
   a.m30*b.m00 + a.m31*b.m10 + a.m32*b.m20 + a.m33*b.m30,
   a.m30*b.m01 + a.m31*b.m11 + a.m32*b.m21 + a.m33*b.m31,
   a.m30*b.m02 + a.m31*b.m12 + a.m32*b.m22 + a.m33*b.m32,
   a.m30*b.m03 + a.m31*b.m13 + a.m32*b.m23 + a.m33*b.m33⟩

/-- Apply a 4 x 4 matrix to a column 4-vector. -/
def mulVec4 (a : Mat4) (v : Vec4 ℚ) : Vec4 ℚ :=
  ⟨a.m00*v.x + a.m01*v.y + a.m02*v.z + a.m03*v.w,
   a.m10*v.x + a.m11*v.y + a.m12*v.z + a.m13*v.w,
   a.m20*v.x + a.m21*v.y + a.m22*v.z + a.m23*v.w,
   a.m30*v.x + a.m31*v.y + a.m32*v.z + a.m33*v.w⟩

/-- Apply a 3 x 3 matrix to a column 3-vector. -/
def mat3Apply (a : Mat3) (v : Vec3 ℚ) : Vec3 ℚ :=
  ⟨a.m00*v.x + a.m01*v.y + a.m02*v.z,
   a.m10*v.x + a.m11*v.y + a.m12*v.z,
   a.m20*v.x + a.m21*v.y + a.m22*v.z⟩

/-- cgmath Matrix4::from_translation: identity with the translation in
the last column (matrices act on column vectors from the left). -/
def translationMat (t : Vec3 ℚ) : Mat4 :=
  ⟨1,0,0,t.x, 0,1,0,t.y, 0,0,1,t.z, 0,0,0,1⟩

/-- cgmath Matrix4::from_nonuniform_scale: the diagonal scale matrix. -/
def scaleMat (s : Vec3 ℚ) : Mat4 :=
  ⟨s.x,0,0,0, 0,s.y,0,0, 0,0,s.z,0, 0,0,0,1⟩

/-- cgmath's quaternion-to-rotation-matrix conversion (the 3 x 3 core
of Matrix4::from(Quaternion)), with cgmath's doubled-product shorthands
(x2 = x + x, xy2 = x2 * y, and so on) inlined. -/
def quatMat3 (q : Quat ℚ) : Mat3 :=
  ⟨1 - (q.y + q.y) * q.y - (q.z + q.z) * q.z,
   (q.x + q.x) * q.y - (q.z + q.z) * q.s,
   (q.x + q.x) * q.z + (q.y + q.y) * q.s,
   (q.x + q.x) * q.y + (q.z + q.z) * q.s,
   1 - (q.x + q.x) * q.x - (q.z + q.z) * q.z,
   (q.y + q.y) * q.z - (q.x + q.x) * q.s,
   (q.x + q.x) * q.z - (q.y + q.y) * q.s,
   (q.y + q.y) * q.z + (q.x + q.x) * q.s,
   1 - (q.x + q.x) * q.x - (q.y + q.y) * q.y⟩

/-- cgmath Matrix4::from(Quaternion): the rotation 3 x 3 core embedded
in a 4 x 4 homogeneous matrix. -/
def mat4OfQuat (q : Quat ℚ) : Mat4 :=
  ⟨(quatMat3 q).m00, (quatMat3 q).m01, (quatMat3 q).m02, 0,
   (quatMat3 q).m10, (quatMat3 q).m11, (quatMat3 q).m12, 0,
   (quatMat3 q).m20, (quatMat3 q).m21, (quatMat3 q).m22, 0,
   0, 0, 0, 1⟩

/-- Trs::matrix (src/src/trs.rs, lines 48-54): build the translation,
rotation and scale matrices and multiply them in exactly the written
order, t * r * s.  The conversion through the flat 4 x 4 array into the
repository's Mat4 preserves every entry, so it is the identity here. -/
def Trs.matrix (tr : Trs ℚ) : Mat4 :=
  matMul (matMul (translationMat tr.t) (mat4OfQuat tr.r)) (scaleMat tr.s)

/-- DTrs::matrix (src/src/trs.rs, lines 156-162), same construction at
double precision. -/
def DTrs.matrix (tr : DTrs ℚ) : Mat4 :=
  matMul (matMul (translationMat tr.t) (mat4OfQuat tr.r)) (scaleMat tr.s)

/-- Trs::identity (src/src/trs.rs, lines 39-45).  The field values are
modelled from the spec: the vec3! and quat! shorthand constructors are
not under src/; per the spec (sections 4.3 and 9) they are the zero
vector, the identity quaternion and, for vec3!(1.0), the broadcast
all-ones vector. -/
def Trs.identity : Trs ℚ := ⟨⟨0,0,0⟩, ⟨1,0,0,0⟩, ⟨1,1,1⟩⟩

/-- impl Default for Trs (src/src/trs.rs, lines 26-30): defers to
Trs::identity. -/
def Trs.default : Trs ℚ := Trs.identity

/-- DTrs::identity (src/src/trs.rs, lines 147-153). -/
def DTrs.identity : DTrs ℚ := ⟨⟨0,0,0⟩, ⟨1,0,0,0⟩, ⟨1,1,1⟩⟩

/-- impl Default for DTrs (src/src/trs.rs, lines 134-138). -/
def DTrs.default : DTrs ℚ := DTrs.identity

/-- The spec's reading of the composition order (section 4.3): scale
the point componentwise, apply the rotation's linear map, then add the
translation.  This is the specification-side definition that
Trs::matrix is compared against. -/
def scaleRotateTranslate (tr : Trs ℚ) (p : Vec3 ℚ) : Vec3 ℚ :=
  let scaled : Vec3 ℚ := ⟨tr.s.x * p.x, tr.s.y * p.y, tr.s.z * p.z⟩
  let rotated := mat3Apply (quatMat3 tr.r) scaled
  ⟨tr.t.x + rotated.x, tr.t.y + rotated.y, tr.t.z + rotated.z⟩

/-- The spec-side composition order for DTrs. -/
def scaleRotateTranslateD (tr : DTrs ℚ) (p : Vec3 ℚ) : Vec3 ℚ :=
  let scaled : Vec3 ℚ := ⟨tr.s.x * p.x, tr.s.y * p.y, tr.s.z * p.z⟩
  let rotated := mat3Apply (quatMat3 tr.r) scaled
  ⟨tr.t.x + rotated.x, tr.t.y + rotated.y, tr.t.z + rotated.z⟩

/-- Tier-1 (absolute-difference) equality of two rational 4 x 4
matrices: every entry pair within the one epsilon.  Modelled from the
spec (section 4.4 tier 1) over the exact kernel. -/
def mat4AbsDiffEq (eps : ℚ) (a b : Mat4) : Bool :=
  decide (|a.m00 - b.m00| ≤ eps ∧ |a.m01 - b.m01| ≤ eps ∧
          |a.m02 - b.m02| ≤ eps ∧ |a.m03 - b.m03| ≤ eps ∧
          |a.m10 - b.m10| ≤ eps ∧ |a.m11 - b.m11| ≤ eps ∧
          |a.m12 - b.m12| ≤ eps ∧ |a.m13 - b.m13| ≤ eps ∧
          |a.m20 - b.m20| ≤ eps ∧ |a.m21 - b.m21| ≤ eps ∧
          |a.m22 - b.m22| ≤ eps ∧ |a.m23 - b.m23| ≤ eps ∧
          |a.m30 - b.m30| ≤ eps ∧ |a.m31 - b.m31| ≤ eps ∧
          |a.m32 - b.m32| ≤ eps ∧ |a.m33 - b.m33| ≤ eps)

/-- The default tier-1 epsilon of the single-precision family, as an
exact rational: f32::EPSILON. -/
def eps32Q : ℚ := qpow2 (-23)

/-- Tier-1 equality for a float quaternion, componentwise over the four
fields.  Modelled from the spec (section 4.4): the Quat type and its
AbsDiffEq impl are not under src/. -/
def Quat.absDiffEqF (fmt : Format) (a b : Quat Fl) (eps : Fl) : Bool :=
  absDiffF fmt a.s b.s eps && absDiffF fmt a.x b.x eps &&
  absDiffF fmt a.y b.y eps && absDiffF fmt a.z b.z eps

/-- Tier-1 equality for Trs.  Modelled from the spec (sections 4.4 and
9): the source impl (src/src/trs.rs, lines 102-113) forwards to each
field's abs_diff_eq but passes an undeclared max_ulps name as an extra
third argument, so it does not type-check against the two-argument
AbsDiffEq signature it implements; per the spec, tier 1 takes the
single epsilon only and applies it to all three fields. -/
def Trs.absDiffEq (a b : Trs Fl) (eps : Fl) : Bool :=
  Vec3.absDiffEqF fmt32 a.t b.t eps &&
  Quat.absDiffEqF fmt32 a.r b.r eps &&
  Vec3.absDiffEqF fmt32 a.s b.s eps

/-- Tier-1 equality for DTrs, modelled from the spec exactly as for Trs
(the source impl at src/src/trs.rs, lines 210-221, has the same
undeclared max_ulps defect). -/
def DTrs.absDiffEq (a b : DTrs Fl) (eps : Fl) : Bool :=
  Vec3.absDiffEqF fmt64 a.t b.t eps &&
  Quat.absDiffEqF fmt64 a.r b.r eps &&
  Vec3.absDiffEqF fmt64 a.s b.s eps

/-! Basic facts about the scalar model. -/

theorem qpow2_pos (k : Int) : 0 < qpow2 k := by
  unfold qpow2
  positivity

theorem qpow2_ne_zero (k : Int) : qpow2 k ≠ 0 := ne_of_gt (qpow2_pos k)

theorem qpow2_add (a b : Int) : qpow2 (a + b) = qpow2 a * qpow2 b :=
  zpow_add₀ (two_ne_zero) a b

theorem qfloor_intCast (m : Int) : qfloor (m : ℚ) = m := by
  unfold qfloor
  rw [Rat.num_intCast, Rat.den_intCast]
  cases m <;> simp [Int.ediv]

theorem nearestEven_intCast (m : Int) : nearestEven (m : ℚ) = m := by
  simp [nearestEven, qfloor_intCast]

theorem rat_den_one_cast (x : ℚ) (h : x.den = 1) : ((x.num : ℚ)) = x := by
  conv_rhs => rw [← Rat.num_div_den x]
  rw [h]
  norm_num

theorem roundFl_eq_self (fmt : Format) (q : ℚ)
    (h : Fl.isRepr fmt (.finite q) = true) : roundFl fmt q = .finite q := by
  unfold Fl.isRepr at h
  rw [decide_eq_true_eq] at h
  by_cases h0 : q = 0
  · subst h0
    unfold roundFl
    simp
  · rcases h with h0x | ⟨hden, hlt⟩
    · exact absurd h0x h0
    · have hx := rat_den_one_cast _ hden
      have hr : (nearestEven (q / qpow2 (fmt.quantum q)) : ℚ) * qpow2 (fmt.quantum q) = q := by
        rw [← hx, nearestEven_intCast, hx, div_mul_cancel₀ _ (qpow2_ne_zero _)]
      unfold roundFl
      rw [if_neg h0]
      simp only [hr]
      rw [if_pos hlt]

theorem qpow2_mono {a b : Int} (h : a ≤ b) : qpow2 a ≤ qpow2 b := by
  unfold qpow2
  exact zpow_le_zpow_right₀ one_le_two h

theorem qpow2_ofNonneg (k : Int) (h : 0 ≤ k) : qpow2 k = ((2 ^ k.toNat : Int) : ℚ) := by
  have hk : k = (k.toNat : Int) := (Int.toNat_of_nonneg h).symm
  conv_lhs => rw [qpow2, hk, zpow_natCast]
  push_cast
  ring

theorem isRepr_widen (x : Fl) (h : x.isRepr fmt32 = true) : x.isRepr fmt64 = true := by
  cases x with
  | nan => rfl
  | inf n => rfl
  | finite q =>
    unfold Fl.isRepr at h ⊢
    rw [decide_eq_true_eq] at h ⊢
    rcases h with h0 | ⟨hden, hlt⟩
    · exact Or.inl h0
    · refine Or.inr ⟨?_, ?_⟩
      · have hk : fmt64.quantum q ≤ fmt32.quantum q := by
          unfold Format.quantum
          apply max_le_max
          · norm_num [fmt32, fmt64]
          · simp only [fmt32, fmt64]
            omega
        have hnn : 0 ≤ fmt32.quantum q - fmt64.quantum q := by omega
        have hsplit : q / qpow2 (fmt64.quantum q) =
            (q / qpow2 (fmt32.quantum q)) * qpow2 (fmt32.quantum q - fmt64.quantum q) := by
          rw [div_mul_eq_mul_div, div_eq_div_iff (qpow2_ne_zero _) (qpow2_ne_zero _),
            mul_assoc, ← qpow2_add]
          congr 1
          congr 1
          omega
        have hq2 : qpow2 (fmt32.quantum q - fmt64.quantum q) =
            ((2 ^ (fmt32.quantum q - fmt64.quantum q).toNat : Int) : ℚ) :=
          qpow2_ofNonneg _ hnn
        have hx := rat_den_one_cast _ hden
        have hval : q / qpow2 (fmt64.quantum q) =
            (((q / qpow2 (fmt32.quantum q)).num * 2 ^ (fmt32.quantum q - fmt64.quantum q).toNat : Int) : ℚ) := by
          rw [hsplit, hq2]
          push_cast
          rw [hx]
        rw [hval, Rat.den_intCast]
      · refine lt_of_lt_of_le hlt (qpow2_mono ?_)
        norm_num [fmt32, fmt64]

theorem castTo_eq_self_of_isRepr (fmt : Format) (x : Fl) (h : x.isRepr fmt = true) :
    castTo fmt x = x := by
  cases x with
  | nan => rfl
  | inf n => rfl
  | finite q => exact roundFl_eq_self fmt q h

theorem fadd_comm (fmt : Format) (a b : Fl) : fadd fmt a b = fadd fmt b a := by
  cases a with
  | nan => cases b <;> rfl
  | inf n =>
    cases b with
    | nan => rfl
    | inf m => cases n <;> cases m <;> rfl
    | finite q => rfl
  | finite p =>
    cases b with
    | nan => rfl
    | inf m => rfl
    | finite q => simp [fadd, add_comm]

theorem feq_refl_of_ne_nan (x : Fl) (h : x ≠ .nan) : feq x x = true := by
  cases x with
  | nan => exact absurd rfl h
  | inf n => simp [feq]
  | finite q => simp [feq]

theorem absDiffF_self_finite (fmt : Format) (q : ℚ) :
    absDiffF fmt (.finite q) (.finite q) defaultEps32 = true := by
  have h1 : fsub fmt (.finite q) (.finite q) = .finite 0 := by
    simp [fsub, fadd, fneg, roundFl]
  simp only [absDiffF, h1, fabs, abs_zero, fle, defaultEps32]
  rw [decide_eq_true_eq]
  exact le_of_lt (qpow2_pos _)

theorem absDiffF_self_finite_nonneg (fmt : Format) (q e : ℚ) (he : 0 ≤ e) :
    absDiffF fmt (.finite q) (.finite q) (.finite e) = true := by
  have h1 : fsub fmt (.finite q) (.finite q) = .finite 0 := by
    simp [fsub, fadd, fneg, roundFl]
  simp only [absDiffF, h1, fabs, abs_zero, fle]
  rw [decide_eq_true_eq]
  exact he

theorem flRelativeEq_nan (fmt : Format) (eps maxRel : Fl) :
    flRelativeEq fmt .nan .nan eps maxRel = false := by
  simp [flRelativeEq, feq, fsub, fadd, fneg, fabs, fle, fgt, flt, fmul]

theorem flUlpsEq_nan (fmt : Format) (eps : Fl) (maxUlps : Nat) :
    flUlpsEq fmt .nan .nan eps maxUlps = false := by
  simp [flUlpsEq, feq, fsub, fadd, fneg, fabs, fle, fsignum]

/-! Claim theorems. -/

/-- C4.  Converting any vector of any dimension to its raw fixed-length
array and constructing a vector back from that array yields the vector
itself.  The component type is universally quantified, so the equality
is bit-level: it covers both precisions and every payload, NaN bit
patterns included, and component order is preserved by construction. -/
theorem vector_array_roundtrip :
    ∀ (α : Type) (v2 : Vec2 α) (v3 : Vec3 α) (v4 : Vec4 α),
      Vec2.fromArray (Vec2.toArray v2) = v2 ∧
      Vec3.fromArray (Vec3.toArray v3) = v3 ∧
      Vec4.fromArray (Vec4.toArray v4) = v4 :=
  fun _ _ _ _ => ⟨rfl, rfl, rfl⟩

/-- C7.  Broadcast construction: From a scalar of the vector's own
precision sets every component to that scalar (witnessed concretely at
5.0 for Vec3, as the spec states it); from a scalar of the other
precision, the scalar is first narrowed (single-precision family) or
widened (double-precision family) by the IEEE cast and then broadcast. -/
theorem vec_broadcast_construction :
    Vec3.fromF32 (.finite 5) = Vec3.new (.finite 5) (.finite 5) (.finite 5) ∧
    (∀ a : Fl, Vec2.fromF32 a = Vec2.new a a) ∧
    (∀ a : Fl, Vec3.fromF32 a = Vec3.new a a a) ∧
    (∀ a : Fl, Vec4.fromF32 a = Vec4.new a a a a) ∧
    (∀ a : Fl, Vec2.fromF64 a = Vec2.new (castTo fmt32 a) (castTo fmt32 a)) ∧
    (∀ a : Fl, Vec3.fromF64 a =
      Vec3.new (castTo fmt32 a) (castTo fmt32 a) (castTo fmt32 a)) ∧
    (∀ a : Fl, Vec4.fromF64 a =
      Vec4.new (castTo fmt32 a) (castTo fmt32 a) (castTo fmt32 a) (castTo fmt32 a)) ∧
    (∀ a : Fl, DVec2.fromF64 a = Vec2.new a a) ∧
    (∀ a : Fl, DVec3.fromF64 a = Vec3.new a a a) ∧
    (∀ a : Fl, DVec4.fromF64 a = Vec4.new a a a a) ∧
    (∀ a : Fl, DVec2.fromF32 a = Vec2.new (castTo fmt64 a) (castTo fmt64 a)) ∧
    (∀ a : Fl, DVec3.fromF32 a =
      Vec3.new (castTo fmt64 a) (castTo fmt64 a) (castTo fmt64 a)) ∧
    (∀ a : Fl, DVec4.fromF32 a =
      Vec4.new (castTo fmt64 a) (castTo fmt64 a) (castTo fmt64 a) (castTo fmt64 a)) :=
  ⟨rfl, fun _ => rfl, fun _ => rfl, fun _ => rfl, fun _ => rfl, fun _ => rfl,
   fun _ => rfl, fun _ => rfl, fun _ => rfl, fun _ => rfl, fun _ => rfl,
   fun _ => rfl, fun _ => rfl⟩

/-- C8.  Dimension-lifting construction places the trailing scalars as
the new last components and preserves the lower-dimension components in
order.  The component type is universally quantified, so this covers
the single- and the double-precision families at once. -/
theorem vec_dimension_lifting :
    ∀ (α : Type) (v2 : Vec2 α) (v3 : Vec3 α) (z w : α),
      Vec3.fromPair (v2, z) = Vec3.new v2.x v2.y z ∧
      Vec4.fromPair (v3, w) = Vec4.new v3.x v3.y v3.z w ∧
      Vec4.fromTriple (v2, z, w) = Vec4.new v2.x v2.y z w :=
  fun _ _ _ _ _ => ⟨rfl, rfl, rfl⟩

/-- C1.  For the intended (spec-modelled, epsilon-only) tier-1 equality
on Trs and DTrs: it holds exactly when all three fields, translation,
rotation and scale, are absolute-difference-equal within the one
epsilon, and the comparison takes no ULP-count parameter (its Lean type
exhibits the single epsilon argument).  The source impl itself does not
type-check, see the doc comment of Trs.absDiffEq. -/
theorem trs_absDiffEq_fieldwise :
    ∀ (a b : Trs Fl) (c d : DTrs Fl) (eps : Fl),
      (Trs.absDiffEq a b eps = true ↔
        (Vec3.absDiffEqF fmt32 a.t b.t eps = true ∧
         Quat.absDiffEqF fmt32 a.r b.r eps = true ∧
         Vec3.absDiffEqF fmt32 a.s b.s eps = true)) ∧
      (DTrs.absDiffEq c d eps = true ↔
        (Vec3.absDiffEqF fmt64 c.t d.t eps = true ∧
         Quat.absDiffEqF fmt64 c.r d.r eps = true ∧
         Vec3.absDiffEqF fmt64 c.s d.s eps = true)) := by
  intro a b c d eps
  constructor
  · simp [Trs.absDiffEq, Bool.and_eq_true, and_assoc]
  · simp [DTrs.absDiffEq, Bool.and_eq_true, and_assoc]

/-- C9.  Approximate equality is not reflexive over the full input
domain: any vector with a NaN component compares unequal to itself
under relative_eq and under ulps_eq, for every epsilon, max_relative
and max_ulps (stated for the three-component single-precision vector;
the impl_vector macro instantiates the identical code for every
dimension and precision). -/
theorem approx_eq_not_reflexive_nan :
    ∀ (v : Vec3 Fl) (eps maxRel : Fl) (maxUlps : Nat),
      (v.x = Fl.nan ∨ v.y = Fl.nan ∨ v.z = Fl.nan) →
      Vec3.relativeEqF fmt32 v v eps maxRel = false ∧
      Vec3.ulpsEqF fmt32 v v eps maxUlps = false := by
  intro v eps maxRel maxUlps h
  rcases h with h | h | h <;>
    simp [Vec3.relativeEqF, Vec3.ulpsEqF, h, flRelativeEq_nan, flUlpsEq_nan]

/-- Witness for C9 at the concrete vector (NaN, 0, 0) with epsilon,
max_relative and max_ulps all zero. -/
theorem approx_eq_not_reflexive_nan_witness :
    Vec3.relativeEqF fmt32 ⟨Fl.nan, Fl.finite 0, Fl.finite 0⟩
        ⟨Fl.nan, Fl.finite 0, Fl.finite 0⟩ (Fl.finite 0) (Fl.finite 0) = false ∧
    Vec3.ulpsEqF fmt32 ⟨Fl.nan, Fl.finite 0, Fl.finite 0⟩
        ⟨Fl.nan, Fl.finite 0, Fl.finite 0⟩ (Fl.finite 0) 0 = false :=
  approx_eq_not_reflexive_nan ⟨Fl.nan, Fl.finite 0, Fl.finite 0⟩
    (Fl.finite 0) (Fl.finite 0) 0 (Or.inl rfl)

/-- C6 counterexample.  At a = (+inf, 0) and b = (-inf, 0), both sums
are (NaN, 0), and the claim's equality fails: the derived PartialEq
reports false (NaN is unequal to itself) and so does tier-1 equality at
the default epsilon.  The claim's quantifier explicitly includes
non-finite inputs, so this concrete instance falsifies it as stated. -/
theorem vec_add_comm_inf_counterexample :
    Vec2.eqF
        (Vec2.addF fmt32 ⟨Fl.inf false, Fl.finite 0⟩ ⟨Fl.inf true, Fl.finite 0⟩)
        (Vec2.addF fmt32 ⟨Fl.inf true, Fl.finite 0⟩ ⟨Fl.inf false, Fl.finite 0⟩) = false ∧
    Vec2.absDiffEqF fmt32
        (Vec2.addF fmt32 ⟨Fl.inf false, Fl.finite 0⟩ ⟨Fl.inf true, Fl.finite 0⟩)
        (Vec2.addF fmt32 ⟨Fl.inf true, Fl.finite 0⟩ ⟨Fl.inf false, Fl.finite 0⟩)
        defaultEps32 = false := by
  constructor <;>
    simp [Vec2.eqF, Vec2.addF, Vec2.absDiffEqF, fadd, feq, absDiffF, fsub, fneg,
      fabs, fle, roundFl]

/-- C6 amended.  Componentwise vector addition is commutative as a
value-level identity for every format, dimension and pair of inputs,
non-finite components included: a + b and b + a are the identical
float datum.  The equality checks see it as far as NaN and infinity
semantics allow: the exact equality operator confirms it whenever no
component of the sum is NaN, and tier-1 comparison confirms it, at
every nonnegative epsilon, whenever every component of the sum is
finite.  When a component of the sum is NaN (opposite infinities or a
NaN input), both checks return false even though the two sums are
identical; an infinite sum component still satisfies exact equality
but fails tier-1, since the float difference of two like infinities is
NaN. -/
theorem vec_add_comm_amended :
    ∀ (fmt : Format) (a2 b2 : Vec2 Fl) (a3 b3 : Vec3 Fl) (a4 b4 : Vec4 Fl),
      Vec2.addF fmt a2 b2 = Vec2.addF fmt b2 a2 ∧
      Vec3.addF fmt a3 b3 = Vec3.addF fmt b3 a3 ∧
      Vec4.addF fmt a4 b4 = Vec4.addF fmt b4 a4 ∧
      ((Vec2.addF fmt a2 b2).x ≠ Fl.nan → (Vec2.addF fmt a2 b2).y ≠ Fl.nan →
        Vec2.eqF (Vec2.addF fmt a2 b2) (Vec2.addF fmt b2 a2) = true) ∧
      ((Vec3.addF fmt a3 b3).x ≠ Fl.nan → (Vec3.addF fmt a3 b3).y ≠ Fl.nan →
        (Vec3.addF fmt a3 b3).z ≠ Fl.nan →
        Vec3.eqF (Vec3.addF fmt a3 b3) (Vec3.addF fmt b3 a3) = true) ∧
      ((Vec4.addF fmt a4 b4).x ≠ Fl.nan → (Vec4.addF fmt a4 b4).y ≠ Fl.nan →
        (Vec4.addF fmt a4 b4).z ≠ Fl.nan → (Vec4.addF fmt a4 b4).w ≠ Fl.nan →
        Vec4.eqF (Vec4.addF fmt a4 b4) (Vec4.addF fmt b4 a4) = true) ∧
      (∀ e : ℚ, 0 ≤ e →
        (∃ qx, (Vec2.addF fmt a2 b2).x = Fl.finite qx) →
        (∃ qy, (Vec2.addF fmt a2 b2).y = Fl.finite qy) →
        Vec2.absDiffEqF fmt (Vec2.addF fmt a2 b2) (Vec2.addF fmt b2 a2)
          (Fl.finite e) = true) ∧
      (∀ e : ℚ, 0 ≤ e →
        (∃ qx, (Vec3.addF fmt a3 b3).x = Fl.finite qx) →
        (∃ qy, (Vec3.addF fmt a3 b3).y = Fl.finite qy) →
        (∃ qz, (Vec3.addF fmt a3 b3).z = Fl.finite qz) →
        Vec3.absDiffEqF fmt (Vec3.addF fmt a3 b3) (Vec3.addF fmt b3 a3)
          (Fl.finite e) = true) ∧
      (∀ e : ℚ, 0 ≤ e →
        (∃ qx, (Vec4.addF fmt a4 b4).x = Fl.finite qx) →
        (∃ qy, (Vec4.addF fmt a4 b4).y = Fl.finite qy) →
        (∃ qz, (Vec4.addF fmt a4 b4).z = Fl.finite qz) →
        (∃ qw, (Vec4.addF fmt a4 b4).w = Fl.finite qw) →
        Vec4.absDiffEqF fmt (Vec4.addF fmt a4 b4) (Vec4.addF fmt b4 a4)
          (Fl.finite e) = true) := by
  intro fmt a2 b2 a3 b3 a4 b4
  have c2 : Vec2.addF fmt a2 b2 = Vec2.addF fmt b2 a2 := by
    simp [Vec2.addF, fadd_comm fmt]
  have c3 : Vec3.addF fmt a3 b3 = Vec3.addF fmt b3 a3 := by
    simp [Vec3.addF, fadd_comm fmt]
  have c4 : Vec4.addF fmt a4 b4 = Vec4.addF fmt b4 a4 := by
    simp [Vec4.addF, fadd_comm fmt]
  refine ⟨c2, c3, c4, ?_, ?_, ?_, ?_, ?_, ?_⟩
  · intro hx hy
    rw [← c2]
    simp [Vec2.eqF, feq_refl_of_ne_nan _ hx, feq_refl_of_ne_nan _ hy]
  · intro hx hy hz
    rw [← c3]
    simp [Vec3.eqF, feq_refl_of_ne_nan _ hx, feq_refl_of_ne_nan _ hy,
      feq_refl_of_ne_nan _ hz]
  · intro hx hy hz hw
    rw [← c4]
    simp [Vec4.eqF, feq_refl_of_ne_nan _ hx, feq_refl_of_ne_nan _ hy,
      feq_refl_of_ne_nan _ hz, feq_refl_of_ne_nan _ hw]
  · rintro e he ⟨qx, hx⟩ ⟨qy, hy⟩
    rw [← c2]
    simp [Vec2.absDiffEqF, hx, hy, absDiffF_self_finite_nonneg _ _ _ he]
  · rintro e he ⟨qx, hx⟩ ⟨qy, hy⟩ ⟨qz, hz⟩
    rw [← c3]
    simp [Vec3.absDiffEqF, hx, hy, hz, absDiffF_self_finite_nonneg _ _ _ he]
  · rintro e he ⟨qx, hx⟩ ⟨qy, hy⟩ ⟨qz, hz⟩ ⟨qw, hw⟩
    rw [← c4]
    simp [Vec4.absDiffEqF, hx, hy, hz, hw, absDiffF_self_finite_nonneg _ _ _ he]

/-- Witness for C6 amended, at all-zero vectors in binary32: the exact
equality checks and the tier-1 checks at epsilon f32::EPSILON report
true once the no-NaN, nonnegativity and finiteness hypotheses are
discharged concretely. -/
theorem vec_add_comm_amended_witness :
    Vec2.eqF (Vec2.addF fmt32 ⟨Fl.finite 0, Fl.finite 0⟩ ⟨Fl.finite 0, Fl.finite 0⟩)
        (Vec2.addF fmt32 ⟨Fl.finite 0, Fl.finite 0⟩ ⟨Fl.finite 0, Fl.finite 0⟩) = true ∧
    Vec3.eqF
        (Vec3.addF fmt32 ⟨Fl.finite 0, Fl.finite 0, Fl.finite 0⟩
          ⟨Fl.finite 0, Fl.finite 0, Fl.finite 0⟩)
        (Vec3.addF fmt32 ⟨Fl.finite 0, Fl.finite 0, Fl.finite 0⟩
          ⟨Fl.finite 0, Fl.finite 0, Fl.finite 0⟩) = true ∧
    Vec4.eqF
        (Vec4.addF fmt32 ⟨Fl.finite 0, Fl.finite 0, Fl.finite 0, Fl.finite 0⟩
          ⟨Fl.finite 0, Fl.finite 0, Fl.finite 0, Fl.finite 0⟩)
        (Vec4.addF fmt32 ⟨Fl.finite 0, Fl.finite 0, Fl.finite 0, Fl.finite 0⟩
          ⟨Fl.finite 0, Fl.finite 0, Fl.finite 0, Fl.finite 0⟩) = true ∧
    Vec2.absDiffEqF fmt32
        (Vec2.addF fmt32 ⟨Fl.finite 0, Fl.finite 0⟩ ⟨Fl.finite 0, Fl.finite 0⟩)
        (Vec2.addF fmt32 ⟨Fl.finite 0, Fl.finite 0⟩ ⟨Fl.finite 0, Fl.finite 0⟩)
        (Fl.finite eps32Q) = true ∧
    Vec3.absDiffEqF fmt32
        (Vec3.addF fmt32 ⟨Fl.finite 0, Fl.finite 0, Fl.finite 0⟩
          ⟨Fl.finite 0, Fl.finite 0, Fl.finite 0⟩)
        (Vec3.addF fmt32 ⟨Fl.finite 0, Fl.finite 0, Fl.finite 0⟩
          ⟨Fl.finite 0, Fl.finite 0, Fl.finite 0⟩)
        (Fl.finite eps32Q) = true ∧
    Vec4.absDiffEqF fmt32
        (Vec4.addF fmt32 ⟨Fl.finite 0, Fl.finite 0, Fl.finite 0, Fl.finite 0⟩
          ⟨Fl.finite 0, Fl.finite 0, Fl.finite 0, Fl.finite 0⟩)
        (Vec4.addF fmt32 ⟨Fl.finite 0, Fl.finite 0, Fl.finite 0, Fl.finite 0⟩
          ⟨Fl.finite 0, Fl.finite 0, Fl.finite 0, Fl.finite 0⟩)
        (Fl.finite eps32Q) = true := by
  have h := vec_add_comm_amended fmt32 ⟨Fl.finite 0, Fl.finite 0⟩ ⟨Fl.finite 0, Fl.finite 0⟩
    ⟨Fl.finite 0, Fl.finite 0, Fl.finite 0⟩ ⟨Fl.finite 0, Fl.finite 0, Fl.finite 0⟩
    ⟨Fl.finite 0, Fl.finite 0, Fl.finite 0, Fl.finite 0⟩
    ⟨Fl.finite 0, Fl.finite 0, Fl.finite 0, Fl.finite 0⟩
  have he : (0 : ℚ) ≤ eps32Q := le_of_lt (qpow2_pos _)
  refine ⟨h.2.2.2.1 ?_ ?_, h.2.2.2.2.1 ?_ ?_ ?_, h.2.2.2.2.2.1 ?_ ?_ ?_ ?_,
      h.2.2.2.2.2.2.1 eps32Q he ⟨0, ?_⟩ ⟨0, ?_⟩,
      h.2.2.2.2.2.2.2.1 eps32Q he ⟨0, ?_⟩ ⟨0, ?_⟩ ⟨0, ?_⟩,
      h.2.2.2.2.2.2.2.2 eps32Q he ⟨0, ?_⟩ ⟨0, ?_⟩ ⟨0, ?_⟩ ⟨0, ?_⟩⟩ <;>
    simp [Vec2.addF, Vec3.addF, Vec4.addF, fadd, roundFl]

/-- C5 counterexample.  At v = (NaN, 0, 0), a valid single-precision
vector (the spec admits any non-finite scalar), the widen-then-narrow
round trip returns v itself exactly, yet tier-1 equality at the default
epsilon reports false, because a NaN component never satisfies the
absolute-difference comparison.  The claim as stated, quantified over
every single-precision vector, is therefore false at this input. -/
theorem vec_precision_roundtrip_nan_counterexample :
    Vec3.fromDVec3 (DVec3.fromVec3 ⟨Fl.nan, Fl.finite 0, Fl.finite 0⟩) =
      ⟨Fl.nan, Fl.finite 0, Fl.finite 0⟩ ∧
    Vec3.absDiffEqF fmt32
        (Vec3.fromDVec3 (DVec3.fromVec3 ⟨Fl.nan, Fl.finite 0, Fl.finite 0⟩))
        ⟨Fl.nan, Fl.finite 0, Fl.finite 0⟩ defaultEps32 = false := by
  constructor
  · simp [Vec3.fromDVec3, DVec3.fromVec3, Vec3.new, castTo, roundFl]
  · simp [Vec3.fromDVec3, DVec3.fromVec3, Vec3.new, castTo, roundFl, Vec3.absDiffEqF,
      absDiffF, fsub, fadd, fneg, fabs, fle]

/-- C5 amended.  For every single-precision vector v (componentwise a
binary32 value, NaN and infinities included), widening each component
to f64 and narrowing back to f32 returns v itself, exactly; both casts
are total functions.  The tier-1 comparison confirms the equality at
the default epsilon whenever every component is finite; for NaN or
infinite components it reports false even though they are preserved
exactly. -/
theorem vec_precision_roundtrip_exact :
    ∀ v : Vec3 Fl,
      Fl.isRepr fmt32 v.x = true → Fl.isRepr fmt32 v.y = true →
      Fl.isRepr fmt32 v.z = true →
      Vec3.fromDVec3 (DVec3.fromVec3 v) = v ∧
      ((∃ qx, v.x = Fl.finite qx) → (∃ qy, v.y = Fl.finite qy) →
        (∃ qz, v.z = Fl.finite qz) →
        Vec3.absDiffEqF fmt32 (Vec3.fromDVec3 (DVec3.fromVec3 v)) v
          defaultEps32 = true) := by
  intro v hx hy hz
  have rx : castTo fmt32 (castTo fmt64 v.x) = v.x := by
    rw [castTo_eq_self_of_isRepr fmt64 _ (isRepr_widen _ hx),
      castTo_eq_self_of_isRepr fmt32 _ hx]
  have ry : castTo fmt32 (castTo fmt64 v.y) = v.y := by
    rw [castTo_eq_self_of_isRepr fmt64 _ (isRepr_widen _ hy),
      castTo_eq_self_of_isRepr fmt32 _ hy]
  have rz : castTo fmt32 (castTo fmt64 v.z) = v.z := by
    rw [castTo_eq_self_of_isRepr fmt64 _ (isRepr_widen _ hz),
      castTo_eq_self_of_isRepr fmt32 _ hz]
  have hrt : Vec3.fromDVec3 (DVec3.fromVec3 v) = v := by
    simp [Vec3.fromDVec3, DVec3.fromVec3, Vec3.new, rx, ry, rz]
  refine ⟨hrt, ?_⟩
  rintro ⟨qx, ex⟩ ⟨qy, ey⟩ ⟨qz, ez⟩
  rw [hrt]
  simp [Vec3.absDiffEqF, ex, ey, ez, absDiffF_self_finite]

/-- Witness for C5 amended, at the all-zero single-precision vector. -/
theorem vec_precision_roundtrip_exact_witness :
    Vec3.fromDVec3 (DVec3.fromVec3 ⟨Fl.finite 0, Fl.finite 0, Fl.finite 0⟩) =
      ⟨Fl.finite 0, Fl.finite 0, Fl.finite 0⟩ ∧
    Vec3.absDiffEqF fmt32
        (Vec3.fromDVec3 (DVec3.fromVec3 ⟨Fl.finite 0, Fl.finite 0, Fl.finite 0⟩))
        ⟨Fl.finite 0, Fl.finite 0, Fl.finite 0⟩ defaultEps32 = true := by
  have h := vec_precision_roundtrip_exact ⟨Fl.finite 0, Fl.finite 0, Fl.finite 0⟩
    (by simp [Fl.isRepr]) (by simp [Fl.isRepr]) (by simp [Fl.isRepr])
  exact ⟨h.1, h.2 ⟨0, rfl⟩ ⟨0, rfl⟩ ⟨0, rfl⟩⟩

/-- C2.  Trs::matrix (and DTrs::matrix) is the product
translation-matrix times rotation-matrix times scale-matrix, multiplied
in exactly that left-to-right order, and acting on a homogeneous column
point it scales first, then rotates, then translates: applying the
result to (p, 1) equals the spec-side scale-rotate-translate
composition.  The embedding is a pure function of the transform, so no
call mutates the Trs and every call is freshly computed from the
fields. -/
theorem trs_matrix_composition_order :
    ∀ (tr : Trs ℚ) (dtr : DTrs ℚ) (p pd : Vec3 ℚ),
      Trs.matrix tr =
        matMul (matMul (translationMat tr.t) (mat4OfQuat tr.r)) (scaleMat tr.s) ∧
      mulVec4 (Trs.matrix tr) ⟨p.x, p.y, p.z, 1⟩ =
        ⟨(scaleRotateTranslate tr p).x, (scaleRotateTranslate tr p).y,
         (scaleRotateTranslate tr p).z, 1⟩ ∧
      DTrs.matrix dtr =
        matMul (matMul (translationMat dtr.t) (mat4OfQuat dtr.r)) (scaleMat dtr.s) ∧
      mulVec4 (DTrs.matrix dtr) ⟨pd.x, pd.y, pd.z, 1⟩ =
        ⟨(scaleRotateTranslateD dtr pd).x, (scaleRotateTranslateD dtr pd).y,
         (scaleRotateTranslateD dtr pd).z, 1⟩ := by
  intro tr dtr p pd
  refine ⟨rfl, ?_, rfl, ?_⟩ <;>
  · simp only [Trs.matrix, DTrs.matrix, matMul, translationMat, mat4OfQuat, quatMat3,
      scaleMat, mulVec4, scaleRotateTranslate, scaleRotateTranslateD, mat3Apply,
      Vec4.mk.injEq]
    refine ⟨by ring, by ring, by ring, by ring⟩

/-- C3.  Trs::identity has translation zero, rotation the identity
quaternion and scale all ones, and its materialized matrix is exactly
the 4 x 4 identity, hence also tier-1 equal to it at the default
epsilon f32::EPSILON. -/
theorem trs_identity_matrix :
    Trs.identity = (⟨⟨0,0,0⟩, ⟨1,0,0,0⟩, ⟨1,1,1⟩⟩ : Trs ℚ) ∧
    Trs.matrix Trs.identity = idMat4 ∧
    mat4AbsDiffEq eps32Q (Trs.matrix Trs.identity) idMat4 = true := by
  have hm : Trs.matrix Trs.identity = idMat4 := by
    simp only [Trs.matrix, Trs.identity, matMul, translationMat, mat4OfQuat, quatMat3,
      scaleMat, idMat4, Mat4.mk.injEq]
    norm_num
  refine ⟨rfl, hm, ?_⟩
  rw [hm]
  simp only [mat4AbsDiffEq, sub_self, abs_zero]
  rw [decide_eq_true_eq]
  have h0 : (0 : ℚ) ≤ eps32Q := le_of_lt (qpow2_pos _)
  exact ⟨h0, h0, h0, h0, h0, h0, h0, h0, h0, h0, h0, h0, h0, h0, h0, h0⟩

/-- C10.  The Default value of the transform is the identity transform,
field for field, for both precisions, and a default-constructed
transform therefore materializes to the identity matrix, not to a
zero-scale degenerate transform. -/
theorem trs_default_is_identity :
    Trs.default = Trs.identity ∧
    DTrs.default = DTrs.identity ∧
    Trs.default.t = (⟨0,0,0⟩ : Vec3 ℚ) ∧
    Trs.default.r = (⟨1,0,0,0⟩ : Quat ℚ) ∧
    Trs.default.s = (⟨1,1,1⟩ : Vec3 ℚ) ∧
    Trs.matrix Trs.default = idMat4 ∧
    DTrs.matrix DTrs.default = idMat4 := by
  refine ⟨rfl, rfl, rfl, rfl, rfl, ?_, ?_⟩ <;>
  · simp only [Trs.matrix, DTrs.matrix, Trs.default, DTrs.default, Trs.identity,
      DTrs.identity, matMul, translationMat, mat4OfQuat, quatMat3, scaleMat, idMat4,
      Mat4.mk.injEq]
    norm_num
